import Mathlib

/-!
# Verification of the polymarket-bot analytics-and-execution core

This file is a shallow embedding, in Lean 4, of the core state-manipulating
logic of the `polymarket_bot` Python package:

* `polymarket_bot/services/portfolio.py` (Kelly sizing, position clamp,
  daily-loss circuit breaker),
* `polymarket_bot/services/timing_classifier.py` together with the quiet-hours
  predicate from `polymarket_bot/services/microstructure.py`,
* `polymarket_bot/services/execution.py` (the position ledger: fills,
  weighted-average entry price, realized PnL, position close),
* `polymarket_bot/trading_bot.py` (the per-market hedge/exit state machine
  `_manage_open_risk`, the per-market entry path `_trade_market`, and the
  scan-cycle driver `tick`),
* the token-bucket `RateLimiter` from `polymarket_bot/integrations/polymarket.py`,
  modelled as a timed transition system over acquisition traces.

Modelling conventions:

* Python `float` quantities (prices, sizes, cash, PnL, thresholds, clock
  readings) are modelled as `ℚ`; the source performs only field arithmetic and
  comparisons on them.
* Python `datetime` values are modelled as `ℚ` seconds on the UTC timeline;
  `datetime.hour` becomes `(⌊t / 3600⌋ % 24)` and difference
  `total_seconds` becomes subtraction.
* Python dictionaries (`portfolio.positions`, `pending_entries`,
  `_unrealized_marks`) are modelled as association lists with unique keys;
  assignment replaces in place, `del`/`pop` removes the key.
* Network calls and the AI advisory step are external collaborators: an order
  placement always reaches the ledger-update path in the source (the venue
  status string never gates `_update_portfolio`), so fills are applied
  unconditionally and the AI decision is passed in as an `Option TradeDecision`
  input.  Log-only state (`performance`, `last_snapshots`, `last_ai_notes`)
  carries no feedback into the state machine and is not modelled.
-/

namespace PolymarketBot

/-! ## Association-list maps (model of Python `dict`) -/

/-- Look up a key in an association list (Python `d.get(key)`). -/
def alookup {α : Type} : List (String × α) → String → Option α
  | [], _ => none
  | (k, v) :: rest, key => if k = key then some v else alookup rest key

/-- Set a key (Python `d[key] = v`): replace in place if present, else append. -/
def aset {α : Type} : List (String × α) → String → α → List (String × α)
  | [], key, v => [(key, v)]
  | (k, w) :: rest, key, v =>
      if k = key then (key, v) :: rest else (k, w) :: aset rest key v

/-- Remove a key (Python `del d[key]` / `d.pop(key, None)`).  Python dict keys
are unique, so filtering out every binding of the key is the same operation. -/
def aerase {α : Type} (l : List (String × α)) (key : String) : List (String × α) :=
  l.filter (fun p => p.1 ≠ key)

theorem alookup_aset {α : Type} (l : List (String × α)) (k k' : String) (v : α) :
    alookup (aset l k v) k' = if k = k' then some v else alookup l k' := by
  induction l with
  | nil => by_cases h : k = k' <;> simp [aset, alookup, h]
  | cons p rest ih =>
      obtain ⟨pk, pv⟩ := p
      by_cases hpk : pk = k
      · by_cases h : k = k' <;> simp [aset, alookup, hpk, h]
      · by_cases h : pk = k'
        · have hkk : ¬ k = k' := fun hc => hpk (h.trans hc.symm)
          have hkk' : ¬ k' = k := fun hc => hkk hc.symm
          simp [aset, alookup, hpk, h, hkk, hkk']
        · simp [aset, alookup, hpk, h, ih]

theorem alookup_aerase {α : Type} (l : List (String × α)) (k k' : String) :
    alookup (aerase l k) k' = if k = k' then none else alookup l k' := by
  induction l with
  | nil => by_cases h : k = k' <;> simp [aerase, alookup, h]
  | cons p rest ih =>
      obtain ⟨pk, pv⟩ := p
      by_cases hpk : pk = k
      · subst hpk
        by_cases h : pk = k' <;> simp_all [aerase, alookup]
      · by_cases h : pk = k'
        · have hkk : ¬ k = k' := fun hc => hpk (h.trans hc.symm)
          simp_all [aerase, alookup, List.filter]
        · simp_all [aerase, alookup, List.filter]

/-! ## Data model (`polymarket_bot/models.py`)

Only the fields consumed by the embedded logic are kept; `Market.question`,
`liquidity`, `volume`, `ends_at` and `source` feed only the market scanner,
which is outside the claims. -/

/-- `models.Position` — one leg of a binary market.  `opened_at` is the
ambient clock at creation (`datetime.utcnow()` default in the source). -/
structure Position where
  market_id : String
  size : ℚ
  average_price : ℚ
  side : String
  opened_at : ℚ
deriving DecidableEq

/-- `models.PortfolioState`. -/
structure PortfolioState where
  cash : ℚ
  positions : List (String × Position)
  realized_pnl : ℚ
  unrealized_pnl : ℚ
deriving DecidableEq

/-- `models.RiskLimits`. -/
structure RiskLimits where
  max_daily_loss : ℚ
  max_position_per_market : ℚ
  risk_free_rate : ℚ
deriving DecidableEq

/-- `models.Market` (fields used by `_trade_market`). -/
structure Market where
  id : String
  outcome_yes_price : ℚ
  outcome_no_price : ℚ
deriving DecidableEq

/-- `models.TradeDecision` (fields used by the coordinator). -/
structure TradeDecision where
  action : String
  size : ℚ
  confidence : ℚ
deriving DecidableEq

/-- `models.MicrostructureSnapshot` (fields read by the coordinator). -/
structure Snapshot where
  timestamp : ℚ
  best_bid : ℚ
  best_ask : ℚ
  near_top_depth : ℚ
  realized_vol_1m : ℚ
  depth_change_30s : ℚ
  spread_change : ℚ
  in_macro_window : Bool
deriving DecidableEq

/-- `models.TimingFeatures`. -/
structure TimingFeatures where
  timestamp : ℚ
  realized_vol_1m : ℚ
  depth_change_30s : ℚ
  spread_change : ℚ
  in_macro_window : Bool
deriving DecidableEq

/-- `config.BotConfig` (fields consumed by the embedded logic). -/
structure BotConfig where
  volatility_threshold : ℚ
  depth_acceleration_threshold : ℚ
  spread_widening_limit : ℚ
  hedge_timeout_seconds : ℚ
  slippage_penalty : ℚ
  max_daily_loss : ℚ
  max_position_per_market : ℚ
  risk_free_rate : ℚ
deriving DecidableEq

/-! ## `services/portfolio.py` -/

/-- `portfolio.kelly_position`. -/
def kelly_position (edge price bankroll : ℚ) : ℚ :=
  if price ≤ 0 ∨ price ≥ 1 then 0
  else
    let fraction := edge / (price * (1 - price))
    let fraction := max (min fraction 1) (-1)
    bankroll * fraction

/-- `portfolio.clamp_position`. -/
def clamp_position (size : ℚ) (limits : RiskLimits) : ℚ :=
  max (min size limits.max_position_per_market) (-limits.max_position_per_market)

/-- `portfolio.enforce_daily_loss`. -/
def enforce_daily_loss (p : PortfolioState) (limits : RiskLimits) : Bool :=
  decide (p.realized_pnl + p.unrealized_pnl ≤ -limits.max_daily_loss)

/-! ## Quiet hours and timing gate
(`services/microstructure.py`, `services/timing_classifier.py`) -/

/-- `MicrostructureScanner.is_quiet_us_hour`: `ts.hour in range(5, 11)`.
The hour of a UTC timestamp in seconds is `⌊ts / 3600⌋ % 24`. -/
def is_quiet_us_hour (ts : ℚ) : Bool :=
  let h : ℤ := ⌊ts / 3600⌋ % 24
  decide (5 ≤ h ∧ h < 11)

/-- `TimingClassifier` (dataclass of the three thresholds). -/
structure TimingClassifier where
  volatility_threshold : ℚ
  depth_acceleration_threshold : ℚ
  spread_widening_limit : ℚ
deriving DecidableEq

/-- `TimingClassifier.allow_entry`. -/
def allow_entry (c : TimingClassifier) (f : TimingFeatures) : Bool :=
  if f.in_macro_window then false
  else if f.realized_vol_1m ≥ c.volatility_threshold then false
  else if f.depth_change_30s ≤ c.depth_acceleration_threshold then false
  else if f.spread_change ≥ c.spread_widening_limit then false
  else if !(is_quiet_us_hour f.timestamp) then false
  else true

/-! ## The position ledger (`services/execution.py`) -/

/-- Python `str.upper()` on the ASCII strings used for sides and actions. -/
def strUpper (s : String) : String :=
  ⟨s.data.map Char.toUpper⟩

/-- `ExecutionService._position_key`: `f"{market_id}:{side.upper()}"`. -/
def positionKey (marketId side : String) : String :=
  marketId ++ ":" ++ strUpper side

/-- `ExecutionService._update_portfolio`.  The SELL branch closes against an
existing position (no-op when absent); the BUY branch creates the position if
absent, recomputes the average price with the `max(abs(size_total), 1)`
denominator guard, and increases the size. -/
def update_portfolio (p : PortfolioState) (marketId : String) (size price : ℚ)
    (side action : String) (now : ℚ) : PortfolioState :=
  let key := positionKey marketId side
  let pos? := alookup p.positions key
  if strUpper action = "SELL" then
    match pos? with
    | none => p
    | some pos =>
        let closeSize := min |size| |pos.size|
        let cash' := p.cash + closeSize * price
        let realized' := p.realized_pnl + (price - pos.average_price) * closeSize
        let newSize := pos.size - closeSize
        if newSize ≤ 0 then
          { p with cash := cash', realized_pnl := realized',
                   positions := aerase p.positions key }
        else
          { p with cash := cash', realized_pnl := realized',
                   positions := aset p.positions key { pos with size := newSize } }
  else
    let pos := pos?.getD
      { market_id := marketId, size := 0, average_price := price, side := side,
        opened_at := now }
    let totalCost := pos.average_price * |pos.size|
    let newCost := price * |size|
    let newAvg := (totalCost + newCost) / max |pos.size + size| 1
    { p with cash := p.cash - newCost,
             positions := aset p.positions key
               { pos with average_price := newAvg, size := pos.size + |size| } }

/-- `ExecutionService.execute_market_order`: places the order (venue status is
an external input) and applies the fill to the portfolio unconditionally. -/
def execute_market_order (venueStatus : String) (p : PortfolioState)
    (marketId : String) (size price : ℚ) (side : String) (action : String)
    (positionSide : Option String) (now : ℚ) : String × PortfolioState :=
  (venueStatus, update_portfolio p marketId size price (positionSide.getD side) action now)

/-- `ExecutionService.close_position`: closing a missing position is a no-op
with status `"skipped"`; otherwise the full position size is sold at `price`. -/
def close_position (venueStatus : String) (p : PortfolioState)
    (marketId side : String) (price : ℚ) (now : ℚ) : String × PortfolioState :=
  match alookup p.positions (positionKey marketId side) with
  | none => ("skipped", p)
  | some pos =>
      let exitSide := if strUpper side = "YES" then "NO" else "YES"
      execute_market_order venueStatus p marketId |pos.size| price exitSide "SELL"
        (some side) now

/-! ## The hedge/exit coordinator (`trading_bot.py`) -/

/-- One entry of `TradingBot.pending_entries[market_id]` (a Python dict with
exactly these keys, created in `_trade_market`). -/
structure PendingEntry where
  timestamp : ℚ
  initial_other_price : ℚ
  entry_side : String
  entry_price : ℚ
  planned_size : ℚ
deriving DecidableEq

/-- The mutable bot state touched by the per-cycle logic: the portfolio,
the `pending_entries` table and the `_unrealized_marks` table. -/
structure BotState where
  portfolio : PortfolioState
  pending : List (String × PendingEntry)
  marks : List (String × ℚ)
deriving DecidableEq

/-- `TradingBot.__init__`: the risk limits are built from the config. -/
def riskLimitsOf (cfg : BotConfig) : RiskLimits :=
  { max_daily_loss := cfg.max_daily_loss,
    max_position_per_market := cfg.max_position_per_market,
    risk_free_rate := cfg.risk_free_rate }

/-- `TradingBot.__init__`: the timing classifier is built from the config. -/
def timingClassifierOf (cfg : BotConfig) : TimingClassifier :=
  { volatility_threshold := cfg.volatility_threshold,
    depth_acceleration_threshold := cfg.depth_acceleration_threshold,
    spread_widening_limit := cfg.spread_widening_limit }

/-- `TradingBot._positions_for_market`: the YES and NO legs under the keys
`f"{market_id}:YES"` and `f"{market_id}:NO"`. -/
def positions_for_market (p : PortfolioState) (marketId : String) :
    Option Position × Option Position :=
  (alookup p.positions (marketId ++ ":YES"), alookup p.positions (marketId ++ ":NO"))

/-- `TradingBot._combined_average`: projected combined average cost after
adding `addYes`/`addNo` at the current prices; a leg with zero total size
contributes nothing (Python truthiness of `yes_total`/`no_total`). -/
def combined_average (yesPos noPos : Option Position)
    (addYes addNo priceYes priceNo : ℚ) : ℚ :=
  let yesCost := (match yesPos with | some p => p.average_price * p.size | none => 0)
    + priceYes * addYes
  let noCost := (match noPos with | some p => p.average_price * p.size | none => 0)
    + priceNo * addNo
  let yesTotal := (match yesPos with | some p => p.size | none => 0) + addYes
  let noTotal := (match noPos with | some p => p.size | none => 0) + addNo
  (if yesTotal ≠ 0 then yesCost / yesTotal else 0)
    + (if noTotal ≠ 0 then noCost / noTotal else 0)

/-- `TradingBot._buy_side`: clamp the size to the per-market limit and apply
the BUY fill unless the clamped size is non-positive. -/
def buy_side (limits : RiskLimits) (p : PortfolioState) (marketId side : String)
    (size price : ℚ) (now : ℚ) : PortfolioState :=
  let clamped := clamp_position size limits
  if clamped ≤ 0 then p
  else (execute_market_order "submitted" p marketId clamped price side "BUY" none now).2

/-- `TradingBot._manage_open_risk`: hedge a single leg when the opposite side
has cheapened below the recorded trigger price (and depth/cost/macro checks
pass), otherwise force-exit a stranded single leg when a timeout/volatility/
depth/spread warning fires AND the exit price is at or above the entry
average.  Both the hedge trigger price and the exit timestamp come from the
`pending_entries` record; without it neither branch can fire. -/
def manage_open_risk (cfg : BotConfig) (bot : BotState) (marketId : String)
    (yesPos noPos : Option Position) (yesPrice noPrice : ℚ) (snap : Snapshot)
    (now : ℚ) : BotState :=
  let limits := riskLimitsOf cfg
  let pending := alookup bot.pending marketId
  let hedged : Option BotState :=
    match yesPos, noPos with
    | some yp, none =>
        let plannedSize := match pending with
          | some e => e.planned_size
          | none => yp.size
        let projectedCost := combined_average (some yp) none 0 plannedSize yesPrice noPrice
        match pending with
        | some e =>
            if noPrice < e.initial_other_price ∧ projectedCost < 99/100 ∧
                snap.near_top_depth ≥ 3 * plannedSize ∧ snap.in_macro_window = false then
              some { bot with
                portfolio := buy_side limits bot.portfolio marketId "NO" plannedSize noPrice now,
                pending := aerase bot.pending marketId }
            else none
        | none => none
    | none, some np =>
        let plannedSize := match pending with
          | some e => e.planned_size
          | none => np.size
        let projectedCost := combined_average none (some np) plannedSize 0 yesPrice noPrice
        match pending with
        | some e =>
            if yesPrice < e.initial_other_price ∧ projectedCost < 99/100 ∧
                snap.near_top_depth ≥ 3 * plannedSize ∧ snap.in_macro_window = false then
              some { bot with
                portfolio := buy_side limits bot.portfolio marketId "YES" plannedSize yesPrice now,
                pending := aerase bot.pending marketId }
            else none
        | none => none
    | _, _ => none
  match hedged with
  | some b => b
  | none =>
      match pending with
      | none => bot
      | some e =>
          let waited := now - e.timestamp
          let shouldExit :=
            waited > cfg.hedge_timeout_seconds ∨
            snap.realized_vol_1m > cfg.volatility_threshold ∨
            snap.depth_change_30s < 0 ∨
            snap.spread_change > cfg.spread_widening_limit
          if shouldExit then
            match yesPos, noPos with
            | some yp, none =>
                if yesPrice ≥ yp.average_price then
                  { bot with
                    portfolio := (close_position "submitted" bot.portfolio marketId "YES" yesPrice now).2,
                    pending := aerase bot.pending marketId }
                else bot
            | none, some np =>
                if noPrice ≥ np.average_price then
                  { bot with
                    portfolio := (close_position "submitted" bot.portfolio marketId "NO" noPrice now).2,
                    pending := aerase bot.pending marketId }
                else bot
            | _, _ => bot
          else bot

/-- `TradingBot._mark_unrealized`: store the mark-to-market PnL of the open
legs in `_unrealized_marks`, or drop the entry when the market is flat. -/
def mark_unrealized (bot : BotState) (marketId : String) (yesPrice noPrice : ℚ) :
    BotState :=
  let (yesPos, noPos) := positions_for_market bot.portfolio marketId
  let unrealized :=
    (match yesPos with | some p => (yesPrice - p.average_price) * p.size | none => 0)
    + (match noPos with | some p => (noPrice - p.average_price) * p.size | none => 0)
  if yesPos.isSome ∨ noPos.isSome then
    { bot with marks := aset bot.marks marketId unrealized }
  else
    { bot with marks := aerase bot.marks marketId }

/-- `TradingBot._trade_market`: risk-manage open legs first; if the market
still holds a leg, only refresh the mark; otherwise evaluate the entry
filters, consult the AI gate (`decision`, an external input), and open a
single leg on the cheaper side with pending-entry bookkeeping. -/
def trade_market (cfg : BotConfig) (bot : BotState) (market : Market)
    (snap : Snapshot) (decision : Option TradeDecision) (now : ℚ) : BotState :=
  let yesPrice := min snap.best_ask market.outcome_yes_price
  let noPrice := min snap.best_bid market.outcome_no_price
  let combinedPrice := yesPrice + noPrice
  let (yesPos, noPos) := positions_for_market bot.portfolio market.id
  let cheapSide := if yesPrice < noPrice then "YES" else "NO"
  let cheapPrice := if yesPrice < noPrice then yesPrice else noPrice
  let otherSidePrice := if cheapSide = "YES" then noPrice else yesPrice
  let baseSize := min (bot.portfolio.cash * (5/100)) cfg.max_position_per_market
  let bot1 := manage_open_risk cfg bot market.id yesPos noPos yesPrice noPrice snap now
  let (yesPos1, noPos1) := positions_for_market bot1.portfolio market.id
  if yesPos1.isSome ∨ noPos1.isSome then
    mark_unrealized bot1 market.id yesPrice noPrice
  else
    let sizeCap := if snap.near_top_depth ≠ 0
      then min baseSize (snap.near_top_depth / 3) else baseSize
    let features : TimingFeatures :=
      { timestamp := snap.timestamp, realized_vol_1m := snap.realized_vol_1m,
        depth_change_30s := snap.depth_change_30s, spread_change := snap.spread_change,
        in_macro_window := snap.in_macro_window }
    let entryFiltersPass :=
      decide (cheapPrice < otherSidePrice) &&
      decide (snap.realized_vol_1m < cfg.volatility_threshold) &&
      decide (snap.depth_change_30s > cfg.depth_acceleration_threshold) &&
      !snap.in_macro_window &&
      allow_entry (timingClassifierOf cfg) features
    if entryFiltersPass && decide (sizeCap > 0) then
      let aiAction := (decision.map (fun d => strUpper d.action)).getD "BUY"
      let aiSize0 := (decision.map TradeDecision.size).getD sizeCap
      let aiSize := min sizeCap (if aiSize0 > 0 then aiSize0 else sizeCap)
      if aiAction = "BUY" ∨ aiAction = cheapSide ∨ aiAction = "BUY_" ++ cheapSide ∨
          aiAction = "HEDGE" then
        let bot2 := { bot1 with
          portfolio := buy_side (riskLimitsOf cfg) bot1.portfolio market.id cheapSide
            aiSize cheapPrice now }
        let bot3 := { bot2 with
          pending := aset bot2.pending market.id
            { timestamp := snap.timestamp, initial_other_price := otherSidePrice,
              entry_side := cheapSide, entry_price := cheapPrice,
              planned_size := aiSize } }
        mark_unrealized bot3 market.id yesPrice noPrice
      else
        bot1  -- the AI-skip branch logs and returns before marking
    else
      mark_unrealized bot1 market.id yesPrice noPrice

/-- `TradingBot.tick` after bootstrap: the daily-loss circuit breaker returns
before anything else runs; with no eligible markets the cycle also returns
early; otherwise every trade target is processed and the portfolio's
unrealized PnL is refreshed from the marks.  Market scanning and the
selection allow-list only shape the `targets` list, which is taken as
input here. -/
def tick (cfg : BotConfig) (bot : BotState)
    (targets : List (Market × Snapshot × Option TradeDecision)) (now : ℚ) : BotState :=
  if enforce_daily_loss bot.portfolio (riskLimitsOf cfg) then bot
  else if targets = [] then bot
  else
    let bot' := targets.foldl
      (fun b t => trade_market cfg b t.1 t.2.1 t.2.2 now) bot
    { bot' with portfolio :=
        { bot'.portfolio with unrealized_pnl := (bot'.marks.map Prod.snd).sum } }

/-! ## The rate limiter (`integrations/polymarket.py`)

`RateLimiter.acquire` runs on the asyncio event loop: the check-refill-
decrement sequence contains no suspension point, so completed acquisitions
are serialized; a blocked caller (`tokens <= 0` with refill below 1) changes
no state before sleeping and retrying.  The observable behaviour is therefore
a sequence of successful acquisitions at nondecreasing clock times, which is
the transition system modelled here.  `now` is the last observed reading of
the monotonic clock. -/

structure RLState where
  capacity : ℤ
  tokens : ℤ
  updated : ℚ
  now : ℚ
deriving DecidableEq

/-- `RateLimiter.__init__(per_minute)` at clock reading `t0`: a full bucket. -/
def rlInit (cap : ℤ) (t0 : ℚ) : RLState :=
  { capacity := cap, tokens := cap, updated := t0, now := t0 }

/-- `refill = (elapsed / 60) * self.capacity`. -/
def rlRefill (s : RLState) (t : ℚ) : ℚ :=
  (t - s.updated) / 60 * (s.capacity : ℚ)

/-- The refill step of `acquire` at clock time `t`: applied only when the
computed refill reaches 1 token (`int(refill)` truncates; the amount is
positive here, so truncation is the floor). -/
def rlAfterRefill (s : RLState) (t : ℚ) : RLState :=
  if 1 ≤ rlRefill s t then
    { s with tokens := min s.capacity (s.tokens + ⌊rlRefill s t⌋), updated := t, now := t }
  else { s with now := t }

/-- `acquire` completes (does not block) exactly when a token remains after
the refill (`self.tokens <= 0` blocks). -/
def rlCanAcquire (s : RLState) (t : ℚ) : Prop :=
  1 ≤ (rlAfterRefill s t).tokens

instance (s : RLState) (t : ℚ) : Decidable (rlCanAcquire s t) := by
  unfold rlCanAcquire; infer_instance

/-- The state after a completed acquisition at clock time `t`. -/
def rlAcquire (s : RLState) (t : ℚ) : RLState :=
  let s' := rlAfterRefill s t
  { s' with tokens := s'.tokens - 1 }

/-- A list of clock times is a valid acquisition trace from `s` when each
acquisition happens no earlier than the previous one (monotonic clock) and
completes without blocking. -/
def rlValid (s : RLState) : List ℚ → Prop
  | [] => True
  | t :: ts => s.now ≤ t ∧ rlCanAcquire s t ∧ rlValid (rlAcquire s t) ts

instance : ∀ (s : RLState) (ts : List ℚ), Decidable (rlValid s ts)
  | _, [] => .isTrue trivial
  | s, t :: ts =>
      have : Decidable (rlValid (rlAcquire s t) ts) := instDecidableRlValid _ _
      decidable_of_iff (s.now ≤ t ∧ rlCanAcquire s t ∧ rlValid (rlAcquire s t) ts)
        Iff.rfl

/-- Number of acquisitions of a trace that fall in the rolling window
`[w, w + 60)`. -/
def windowCount (w : ℚ) (ts : List ℚ) : ℕ :=
  ts.countP (fun t => decide (w ≤ t ∧ t < w + 60))

/-- Reachability invariant of the limiter: tokens stay within `[0, capacity]`
and the refill timestamp never runs ahead of the clock. -/
def rlInv (s : RLState) : Prop :=
  0 ≤ s.tokens ∧ s.tokens ≤ s.capacity ∧ s.updated ≤ s.now

/-! ## Claim-side derived definitions -/

/-- A sequence of OPEN (BUY) fills `(price, size)` on one `(marketId, side)`
key, applied through the ledger's fill path. -/
def apply_open_fills (p : PortfolioState) (marketId side : String) (now : ℚ)
    (fills : List (ℚ × ℚ)) : PortfolioState :=
  fills.foldl (fun acc f => update_portfolio acc marketId f.2 f.1 side "BUY" now) p

/-- Total size of a fill sequence. -/
def fillsSizeSum (fills : List (ℚ × ℚ)) : ℚ :=
  (fills.map Prod.snd).sum

/-- Total cost (`Σ priceᵢ·sizeᵢ`) of a fill sequence. -/
def fillsCostSum (fills : List (ℚ × ℚ)) : ℚ :=
  (fills.map (fun f => f.1 * f.2)).sum

/-- Starting from accumulated size `S`, every running size total of the fill
sequence stays at or above 1 (so the `max(·, 1)` denominator guard in the
average-price update never distorts the weighted mean). -/
def prefixesOk (S : ℚ) : List (ℚ × ℚ) → Bool
  | [] => true
  | f :: rest => decide (1 ≤ S + f.2) && prefixesOk (S + f.2) rest

/-- The forced-exit trigger of `_manage_open_risk` (any of: hedge timeout
exceeded, volatility above threshold, shrinking 30s depth, spread widened
past the limit). -/
def forcedExitCond (cfg : BotConfig) (snap : Snapshot) (waited : ℚ) : Prop :=
  waited > cfg.hedge_timeout_seconds ∨
  snap.realized_vol_1m > cfg.volatility_threshold ∨
  snap.depth_change_30s < 0 ∨
  snap.spread_change > cfg.spread_widening_limit

/-! ### Concrete scenario data used by counterexamples and witnesses -/

/-- A benign config: volatility threshold 1, depth-acceleration threshold 0,
spread-widening limit 1, hedge timeout 600 s, no slippage penalty, max daily
loss 50, max position per market 100. -/
def cfgA : BotConfig :=
  { volatility_threshold := 1, depth_acceleration_threshold := 0,
    spread_widening_limit := 1, hedge_timeout_seconds := 600,
    slippage_penalty := 0, max_daily_loss := 50,
    max_position_per_market := 100, risk_free_rate := 0 }

/-- A single YES leg of 10 units at average price 1/2 on market `"m"`. -/
def posYesA : Position :=
  { market_id := "m", size := 10, average_price := 1/2, side := "YES", opened_at := 0 }

/-- The pending entry recorded when `posYesA` was opened: entry at 1/2, the
other side then quoted at 3/10, planned size 10, at time 0. -/
def pendA : PendingEntry :=
  { timestamp := 0, initial_other_price := 3/10, entry_side := "YES",
    entry_price := 1/2, planned_size := 10 }

/-- A state holding `posYesA` with its pending entry and a heavy realized
loss (−100), i.e. past the daily-loss limit of `cfgA`. -/
def botLossA : BotState :=
  { portfolio := { cash := 0, positions := [("m:YES", posYesA)],
                   realized_pnl := -100, unrealized_pnl := 0 },
    pending := [("m", pendA)],
    marks := [] }

/-- Market `"m"` quoted at YES 3/5, NO 1/2. -/
def mktA : Market :=
  { id := "m", outcome_yes_price := 3/5, outcome_no_price := 1/2 }

/-- A calm snapshot at time 7200 s (hour 2 UTC): YES ask 3/5, NO bid 1/2,
no depth, zero volatility/deltas, outside the macro window.  At time 7200 the
hedge timeout of `cfgA` (600 s) has long expired for `pendA`. -/
def snapA : Snapshot :=
  { timestamp := 7200, best_bid := 1/2, best_ask := 3/5, near_top_depth := 0,
    realized_vol_1m := 0, depth_change_30s := 0, spread_change := 0,
    in_macro_window := false }

/-- A FLAT market `"t"` with YES and NO both priced 3/10 (combined 3/5). -/
def mktB : Market :=
  { id := "t", outcome_yes_price := 3/10, outcome_no_price := 3/10 }

/-- A snapshot passing every entry filter of `cfgA` at hour 6 UTC (quiet
hours): ask/bid 3/10 each, depth 300, zero volatility, growing depth,
no spread widening, outside the macro window. -/
def snapB : Snapshot :=
  { timestamp := 21600, best_bid := 3/10, best_ask := 3/10, near_top_depth := 300,
    realized_vol_1m := 0, depth_change_30s := 1, spread_change := 0,
    in_macro_window := false }

/-- A flat bot state with 1000 cash. -/
def botFlat : BotState :=
  { portfolio := { cash := 1000, positions := [], realized_pnl := 0,
                   unrealized_pnl := 0 },
    pending := [], marks := [] }

/-- An advisory BUY decision of size 50 with confidence 9/10. -/
def decB : TradeDecision :=
  { action := "BUY", size := 50, confidence := 9/10 }

/-! ## Helper lemmas -/

theorem strUpper_SELL : strUpper "SELL" = "SELL" := by decide

theorem strUpper_YES : strUpper "YES" = "YES" := by decide

theorem strUpper_NO : strUpper "NO" = "NO" := by decide

theorem positionKey_YES (mid : String) : positionKey mid "YES" = mid ++ ":YES" := by
  unfold positionKey
  rw [strUpper_YES, String.append_assoc]
  exact congrArg (mid ++ ·) (by decide)

theorem positionKey_NO (mid : String) : positionKey mid "NO" = mid ++ ":NO" := by
  unfold positionKey
  rw [strUpper_NO, String.append_assoc]
  exact congrArg (mid ++ ·) (by decide)

theorem yes_key_ne_no_key (mid : String) : mid ++ ":YES" ≠ mid ++ ":NO" := by
  intro h
  have h2 := congrArg String.data h
  simp only [String.data_append] at h2
  have h3 := List.append_cancel_left h2
  exact absurd (congrArg List.length h3) (by decide)

/-! ## Claims -/

/-- C5: the timing gate is a pure deterministic function of its feature
vector and thresholds; it returns `false` iff the risk-window flag is set, or
realized 1-minute volatility is at or above the volatility threshold, or the
30-second depth change is at or below the depth-acceleration threshold, or
the spread change is at or above the spread-widening limit, or the timestamp
lies outside the quiet-hours band — so a feature exactly at a threshold is
rejected. -/
theorem claim5_timing_gate_iff (c : TimingClassifier) (f : TimingFeatures) :
    allow_entry c f = false ↔
      f.in_macro_window = true ∨
      f.realized_vol_1m ≥ c.volatility_threshold ∨
      f.depth_change_30s ≤ c.depth_acceleration_threshold ∨
      f.spread_change ≥ c.spread_widening_limit ∨
      is_quiet_us_hour f.timestamp = false := by
  unfold allow_entry
  split_ifs with h1 h2 h3 h4 h5 <;>
    simp_all [Bool.not_eq_true', ge_iff_le]

/-- C9: `kelly_position` returns 0 whenever `price ≤ 0` or `price ≥ 1`, and
otherwise `bankroll * clamp(edge / (price*(1-price)), -1, 1)`; for
bankroll 1000, edge 0.10, price 0.40 it returns 1250/3 ≈ 416.7. -/
theorem claim9_kelly :
    (∀ edge price bankroll : ℚ, price ≤ 0 ∨ price ≥ 1 →
      kelly_position edge price bankroll = 0) ∧
    (∀ edge price bankroll : ℚ, 0 < price → price < 1 →
      kelly_position edge price bankroll
        = bankroll * max (min (edge / (price * (1 - price))) 1) (-1)) ∧
    kelly_position (1/10) (2/5) 1000 = 1250/3 ∧
    |kelly_position (1/10) (2/5) 1000 - 4167/10| < 1/10 := by
  have h0 : ∀ edge price bankroll : ℚ, price ≤ 0 ∨ price ≥ 1 →
      kelly_position edge price bankroll = 0 := by
    intro e p b h
    simp [kelly_position, h]
  have h1 : ∀ edge price bankroll : ℚ, 0 < price → price < 1 →
      kelly_position edge price bankroll
        = bankroll * max (min (edge / (price * (1 - price))) 1) (-1) := by
    intro e p b hp hp1
    have hno : ¬ (p ≤ 0 ∨ p ≥ 1) := by
      push_neg
      exact ⟨hp, hp1⟩
    simp [kelly_position, hno]
  have h2 : kelly_position (1/10) (2/5) 1000 = 1250/3 := by
    rw [h1 (1/10) (2/5) 1000 (by norm_num) (by norm_num)]
    norm_num [min_def, max_def]
  refine ⟨h0, h1, h2, ?_⟩
  rw [h2, abs_lt]
  constructor <;> norm_num

/-- C9 witness: the theorem applied at concrete inputs. -/
theorem claim9_witness :
    kelly_position (1/10) 0 50 = 0 ∧
    kelly_position (1/10) (1/2) 100
      = 100 * max (min ((1/10) / ((1/2) * (1 - 1/2))) 1) (-1) :=
  ⟨claim9_kelly.1 (1/10) 0 50 (Or.inl le_rfl),
   claim9_kelly.2.1 (1/10) (1/2) 100 (by norm_num) (by norm_num)⟩

/-- C8: closing a nonexistent position is a no-op returning a "skipped"
result: the portfolio (cash, positions, realized PnL) is returned unchanged. -/
theorem claim8_close_missing_position_skipped (venueStatus : String)
    (p : PortfolioState) (marketId side : String) (price now : ℚ)
    (h : alookup p.positions (positionKey marketId side) = none) :
    close_position venueStatus p marketId side price now = ("skipped", p) := by
  unfold close_position
  rw [h]

/-- C8 witness: closing on an empty position table is skipped. -/
theorem claim8_witness :
    close_position "submitted" ⟨100, [], 0, 0⟩ "m" "YES" (1/2) 0
      = ("skipped", (⟨100, [], 0, 0⟩ : PortfolioState)) :=
  claim8_close_missing_position_skipped "submitted" ⟨100, [], 0, 0⟩ "m" "YES"
    (1/2) 0 rfl

/-- C2: a CLOSE (SELL) fill against an existing position closes
`min(requestedSize, positionSize)`, credits cash by `closeSize*price`, adds
`(price - avgBefore)*closeSize` to realized PnL, never leaves a negative
size, and deletes the record exactly when the remaining size reaches zero or
below; a surviving record keeps the average price. -/
theorem claim2_close_fill (p : PortfolioState) (marketId side : String)
    (pos : Position) (s price now : ℚ)
    (hpos : alookup p.positions (positionKey marketId side) = some pos)
    (hs : 0 ≤ s) (hsize : 0 ≤ pos.size) :
    (update_portfolio p marketId s price side "SELL" now).cash
        = p.cash + min s pos.size * price ∧
    (update_portfolio p marketId s price side "SELL" now).realized_pnl
        = p.realized_pnl + (price - pos.average_price) * min s pos.size ∧
    0 ≤ pos.size - min s pos.size ∧
    (alookup (update_portfolio p marketId s price side "SELL" now).positions
        (positionKey marketId side) = none ↔ pos.size - min s pos.size ≤ 0) ∧
    (∀ pos', alookup (update_portfolio p marketId s price side "SELL" now).positions
        (positionKey marketId side) = some pos' →
      pos'.size = pos.size - min s pos.size ∧
      pos'.average_price = pos.average_price) := by
  have habs_s : |s| = s := abs_of_nonneg hs
  have habs : |pos.size| = pos.size := abs_of_nonneg hsize
  have hmin : 0 ≤ pos.size - min s pos.size := by
    have := min_le_right s pos.size
    linarith
  unfold update_portfolio
  rw [if_pos strUpper_SELL, hpos]
  simp only [habs_s, habs]
  split_ifs with hle
  · refine ⟨rfl, rfl, hmin, ?_, ?_⟩
    · rw [alookup_aerase]
      simp [hle]
    · intro pos' hp'
      rw [alookup_aerase] at hp'
      simp at hp'
  · refine ⟨rfl, rfl, hmin, ?_, ?_⟩
    · rw [alookup_aset]
      simp [hle]
    · intro pos' hp'
      rw [alookup_aset] at hp'
      simp at hp'
      rw [← hp']
      exact ⟨rfl, rfl⟩

/-- C2 witness: selling 2 of a 5-lot YES position at 3/5 with entry average
1/2. -/
theorem claim2_witness :
    (update_portfolio ⟨0, [("m:YES", ⟨"m", 5, 1/2, "YES", 0⟩)], 0, 0⟩
        "m" 2 (3/5) "YES" "SELL" 0).cash
      = 0 + min 2 (Position.mk "m" 5 (1/2) "YES" 0).size * (3/5) ∧
    (update_portfolio ⟨0, [("m:YES", ⟨"m", 5, 1/2, "YES", 0⟩)], 0, 0⟩
        "m" 2 (3/5) "YES" "SELL" 0).realized_pnl
      = 0 + ((3/5) - (Position.mk "m" 5 (1/2) "YES" 0).average_price)
          * min 2 (Position.mk "m" 5 (1/2) "YES" 0).size ∧
    0 ≤ (Position.mk "m" 5 (1/2) "YES" 0).size
        - min 2 (Position.mk "m" 5 (1/2) "YES" 0).size ∧
    (alookup (update_portfolio ⟨0, [("m:YES", ⟨"m", 5, 1/2, "YES", 0⟩)], 0, 0⟩
        "m" 2 (3/5) "YES" "SELL" 0).positions (positionKey "m" "YES") = none ↔
      (Position.mk "m" 5 (1/2) "YES" 0).size
        - min 2 (Position.mk "m" 5 (1/2) "YES" 0).size ≤ 0) ∧
    (∀ pos', alookup (update_portfolio ⟨0, [("m:YES", ⟨"m", 5, 1/2, "YES", 0⟩)], 0, 0⟩
        "m" 2 (3/5) "YES" "SELL" 0).positions (positionKey "m" "YES") = some pos' →
      pos'.size = (Position.mk "m" 5 (1/2) "YES" 0).size
          - min 2 (Position.mk "m" 5 (1/2) "YES" 0).size ∧
      pos'.average_price = (Position.mk "m" 5 (1/2) "YES" 0).average_price) :=
  claim2_close_fill ⟨0, [("m:YES", ⟨"m", 5, 1/2, "YES", 0⟩)], 0, 0⟩ "m" "YES"
    ⟨"m", 5, 1/2, "YES", 0⟩ 2 (3/5) 0 rfl (by norm_num) (by norm_num)

/-- Invariant step for OPEN fills: once a position with running totals
`(S, W)` (size and cost) and `1 ≤ S` is in the book, further positive-size
fills whose running totals stay at or above 1 keep
`average_price = cost / size`. -/
theorem open_fills_invariant (marketId side : String) (now : ℚ)
    (fills : List (ℚ × ℚ)) :
    ∀ (p : PortfolioState) (pos : Position) (S W : ℚ),
    alookup p.positions (positionKey marketId side) = some pos →
    pos.size = S → pos.average_price = W / S → 1 ≤ S →
    (∀ f ∈ fills, 0 < f.2) → prefixesOk S fills = true →
    ∃ pos', alookup (apply_open_fills p marketId side now fills).positions
        (positionKey marketId side) = some pos' ∧
      pos'.size = S + fillsSizeSum fills ∧
      pos'.average_price = (W + fillsCostSum fills) / (S + fillsSizeSum fills) := by
  induction fills with
  | nil =>
      intro p pos S W hpos hS hW _ _ _
      refine ⟨pos, hpos, ?_, ?_⟩
      · simp [fillsSizeSum, hS]
      · simp [fillsCostSum, fillsSizeSum, hW]
  | cons f rest ih =>
      intro p pos S W hpos hS hW hS1 hposs hpre
      obtain ⟨pr, s⟩ := f
      have hs : 0 < s := hposs (pr, s) (List.mem_cons_self _ _)
      have hSpos : 0 < S := lt_of_lt_of_le one_pos hS1
      have hpre1 : 1 ≤ S + s := by
        have := hpre
        unfold prefixesOk at this
        simp only [Bool.and_eq_true, decide_eq_true_eq] at this
        exact this.1
      have hprer : prefixesOk (S + s) rest = true := by
        have := hpre
        unfold prefixesOk at this
        simp only [Bool.and_eq_true, decide_eq_true_eq] at this
        exact this.2
      have hstep : apply_open_fills p marketId side now ((pr, s) :: rest)
          = apply_open_fills (update_portfolio p marketId s pr side "BUY" now)
              marketId side now rest := by
        simp [apply_open_fills]
      rw [hstep]
      set p1 := update_portfolio p marketId s pr side "BUY" now with hp1
      have habs_s : |s| = s := abs_of_nonneg (le_of_lt hs)
      have habsS : |pos.size| = S := by rw [hS]; exact abs_of_nonneg (le_of_lt hSpos)
      have habsSs : |pos.size + s| = S + s := by
        rw [hS]; exact abs_of_nonneg (by linarith)
      have hmax : max |pos.size + s| 1 = S + s := by
        rw [habsSs]; exact max_eq_left hpre1
      have hlook1 : alookup p1.positions (positionKey marketId side)
          = some { pos with
              average_price := (pos.average_price * |pos.size| + pr * |s|)
                / max |pos.size + s| 1,
              size := pos.size + |s| } := by
        rw [hp1]
        unfold update_portfolio
        rw [if_neg (show ¬ strUpper "BUY" = "SELL" from by decide), hpos]
        simp only [Option.getD_some]
        rw [alookup_aset]
        simp
      have havg : (pos.average_price * |pos.size| + pr * |s|) / max |pos.size + s| 1
          = (W + pr * s) / (S + s) := by
        rw [hW, habs_s, habsS, hmax, div_mul_cancel₀ _ (ne_of_gt hSpos)]
      have hsz : pos.size + |s| = S + s := by rw [hS, habs_s]
      obtain ⟨pos', hlk, hsz', havg'⟩ :=
        ih p1 _ (S + s) (W + pr * s) hlook1 hsz (by rw [havg]) hpre1
          (fun g hg => hposs g (List.mem_cons_of_mem _ hg)) hprer
      refine ⟨pos', hlk, ?_, ?_⟩
      · rw [hsz']
        simp [fillsSizeSum]
        ring
      · rw [havg']
        simp only [fillsSizeSum, fillsCostSum, List.map_cons, List.sum_cons]
        rw [add_assoc, add_assoc]

/-- C1 counterexample: a single OPEN fill of positive size 1/2 at price 2/5,
applied to a flat book through the ledger's fill path, yields average entry
price 1/5, while the size-weighted mean of the fill prices is 2/5 — because
the source guards the denominator with `max(abs(oldSize+size), 1)`, which
clamps at every cumulative size below 1, not only at zero. -/
theorem claim1_counterexample :
    (∀ f ∈ [((2/5 : ℚ), (1/2 : ℚ))], 0 < f.2) ∧
    (alookup (apply_open_fills ⟨1000, [], 0, 0⟩ "m" "YES" 0
        [(2/5, 1/2)]).positions (positionKey "m" "YES")).map
      Position.average_price = some (1/5) ∧
    fillsCostSum [(2/5, 1/2)] / fillsSizeSum [(2/5, 1/2)] = 2/5 ∧
    (1/5 : ℚ) ≠ 2/5 := by
  refine ⟨?_, ?_, ?_, by norm_num⟩
  · intro f hf
    simp only [List.mem_singleton] at hf
    rw [hf]
    norm_num
  · unfold apply_open_fills
    simp only [List.foldl_cons, List.foldl_nil]
    unfold update_portfolio
    rw [if_neg (show ¬ strUpper "BUY" = "SELL" from by decide)]
    simp only [alookup, Option.getD_none, aset, if_true, Option.map_some]
    norm_num [max_def, abs_of_nonneg]
  · simp [fillsCostSum, fillsSizeSum]

/-- C1 amended: for every nonempty sequence of OPEN (BUY) fills with positive
sizes on a single `(marketId, side)` key, applied through the ledger's fill
path, *provided every running size total is at least 1* (so the
`max(·, 1)` denominator guard is inert), the resulting position's average
entry price equals the size-weighted mean `Σ priceᵢ·sizeᵢ / Σ sizeᵢ` of the
fills, and its size is the total filled size.  (The source guards the
denominator to at least 1, not merely against zero, so the claim fails when a
running total is below 1.) -/
theorem claim1_weighted_average_amended (p : PortfolioState)
    (marketId side : String) (now : ℚ) (fills : List (ℚ × ℚ))
    (hnone : alookup p.positions (positionKey marketId side) = none)
    (hne : fills ≠ [])
    (hposs : ∀ f ∈ fills, 0 < f.2)
    (hpre : prefixesOk 0 fills = true) :
    ∃ pos', alookup (apply_open_fills p marketId side now fills).positions
        (positionKey marketId side) = some pos' ∧
      pos'.size = fillsSizeSum fills ∧
      pos'.average_price = fillsCostSum fills / fillsSizeSum fills := by
  match fills, hne with
  | (pr, s) :: rest, _ =>
    have hs : 0 < s := hposs (pr, s) (List.mem_cons_self _ _)
    have hpre1 : 1 ≤ 0 + s := by
      have := hpre
      unfold prefixesOk at this
      simp only [Bool.and_eq_true, decide_eq_true_eq] at this
      exact this.1
    have hs1 : 1 ≤ s := by linarith
    have hprer : prefixesOk (0 + s) rest = true := by
      have := hpre
      unfold prefixesOk at this
      simp only [Bool.and_eq_true, decide_eq_true_eq] at this
      exact this.2
    have hstep : apply_open_fills p marketId side now ((pr, s) :: rest)
        = apply_open_fills (update_portfolio p marketId s pr side "BUY" now)
            marketId side now rest := by
      simp [apply_open_fills]
    rw [hstep]
    set p1 := update_portfolio p marketId s pr side "BUY" now with hp1
    have habs_s : |s| = s := abs_of_nonneg (le_of_lt hs)
    have hmax : max |(0 : ℚ) + s| 1 = s := by
      rw [zero_add, habs_s]
      exact max_eq_left hs1
    have hlook1 : alookup p1.positions (positionKey marketId side)
        = some { market_id := marketId, size := 0 + |s|,
                 average_price := (pr * |(0 : ℚ)| + pr * |s|) / max |(0 : ℚ) + s| 1,
                 side := side, opened_at := now } := by
      rw [hp1]
      unfold update_portfolio
      rw [if_neg (show ¬ strUpper "BUY" = "SELL" from by decide), hnone]
      simp only [Option.getD_none]
      rw [alookup_aset]
      simp
    have hsz : (0 : ℚ) + |s| = s := by rw [zero_add, habs_s]
    have havg : (pr * |(0 : ℚ)| + pr * |s|) / max |(0 : ℚ) + s| 1
        = (pr * s) / s := by
      rw [hmax, habs_s]
      simp
    obtain ⟨pos', hlk, hsz', havg'⟩ :=
      open_fills_invariant marketId side now rest p1
        _ s (pr * s) hlook1 (by simpa using hsz) (by simpa using havg)
        hs1 (fun g hg => hposs g (List.mem_cons_of_mem _ hg))
        (by simpa using hprer)
    refine ⟨pos', hlk, ?_, ?_⟩
    · rw [hsz']
      simp [fillsSizeSum]
    · rw [havg']
      simp [fillsSizeSum, fillsCostSum]

/-- C1 witness: two fills (price 2/5 size 2, then price 1/2 size 3) give
average (2/5·2 + 1/2·3)/5 = 23/50 and size 5. -/
theorem claim1_witness :
    ∃ pos', alookup (apply_open_fills ⟨1000, [], 0, 0⟩ "m" "YES" 0
        [(2/5, 2), (1/2, 3)]).positions (positionKey "m" "YES") = some pos' ∧
      pos'.size = fillsSizeSum [(2/5, 2), (1/2, 3)] ∧
      pos'.average_price
        = fillsCostSum [(2/5, 2), (1/2, 3)] / fillsSizeSum [(2/5, 2), (1/2, 3)] :=
  claim1_weighted_average_amended ⟨1000, [], 0, 0⟩ "m" "YES" 0
    [(2/5, 2), (1/2, 3)] rfl (by simp)
    (by
      intro f hf
      simp only [List.mem_cons, List.not_mem_nil, or_false] at hf
      rcases hf with h | h <;> rw [h] <;> norm_num)
    (by norm_num [prefixesOk])

set_option maxHeartbeats 1600000 in
/-- C6 counterexample: with the daily loss breached (realized −100 against a
50 limit), `tick` returns the whole state unchanged — even though running the
same cycle body on the same inputs would have force-exited the stranded YES
leg (its position key disappears).  So existing positions can NOT still be
exited during a breached cycle, contrary to the claim. -/
theorem claim6_counterexample :
    enforce_daily_loss botLossA.portfolio (riskLimitsOf cfgA) = true ∧
    tick cfgA botLossA [(mktA, snapA, none)] 7200 = botLossA ∧
    alookup (trade_market cfgA botLossA mktA snapA none 7200).portfolio.positions
      (positionKey "m" "YES") = none := by
  have hbreach : enforce_daily_loss botLossA.portfolio (riskLimitsOf cfgA) = true := by
    simp only [enforce_daily_loss, botLossA, riskLimitsOf, cfgA, decide_eq_true_eq]
    norm_num
  refine ⟨hbreach, ?_, ?_⟩
  · unfold tick
    rw [if_pos hbreach]
  · have hkeyY : positionKey "m" "YES" = "m:YES" := by decide
    have hkeyN : positionKey "m" "NO" = "m:NO" := by decide
    have hclose : (close_position "submitted"
          ⟨0, [("m:YES", ⟨"m", 10, 1/2, "YES", 0⟩)], -100, 0⟩ "m" "YES" (3/5) 7200).2
        = ⟨6, [], -99, 0⟩ := by
      norm_num [close_position, execute_market_order, update_portfolio, alookup,
        aerase, List.filter, strUpper_SELL, strUpper_YES, hkeyY]
    have hmor : manage_open_risk cfgA botLossA "m" (some posYesA) none (3/5) (1/2)
        snapA 7200
        = ⟨⟨6, [], -99, 0⟩, [], []⟩ := by
      unfold manage_open_risk
      norm_num [botLossA, posYesA, pendA, cfgA, snapA, alookup, combined_average,
        aerase, List.filter, hclose]
    have hpfm : positions_for_market botLossA.portfolio "m" = (some posYesA, none) := by
      simp [positions_for_market, botLossA, alookup]
    have hpfm2 : positions_for_market
        ((⟨⟨6, [], -99, 0⟩, [], []⟩ : BotState)).portfolio "m" = (none, none) := by
      simp [positions_for_market, alookup]
    unfold trade_market
    rw [show min snapA.best_ask mktA.outcome_yes_price = 3/5 from by
      norm_num [snapA, mktA]]
    rw [show min snapA.best_bid mktA.outcome_no_price = 1/2 from by
      norm_num [snapA, mktA]]
    rw [show mktA.id = "m" from rfl, hpfm]
    simp only [hmor, hpfm2]
    rw [hkeyY]
    norm_num [mark_unrealized, positions_for_market, alookup, allow_entry,
      timingClassifierOf, cfgA, snapA, aerase, aset, List.filter]

/-- C6 amended: `enforce_daily_loss` returns true exactly when
`realizedPnL + unrealizedPnL ≤ −maxDailyLoss`, and when it is true at the
start of a scan cycle the coordinator skips the ENTIRE cycle — neither
new-entry evaluation nor exit management of existing positions runs (the
state is returned unchanged). -/
theorem claim6_daily_loss_amended :
    (∀ (p : PortfolioState) (l : RiskLimits),
      enforce_daily_loss p l = true ↔
        p.realized_pnl + p.unrealized_pnl ≤ -l.max_daily_loss) ∧
    (∀ (cfg : BotConfig) (bot : BotState)
      (targets : List (Market × Snapshot × Option TradeDecision)) (now : ℚ),
      enforce_daily_loss bot.portfolio (riskLimitsOf cfg) = true →
      tick cfg bot targets now = bot) := by
  constructor
  · intro p l
    simp [enforce_daily_loss]
  · intro cfg bot targets now h
    unfold tick
    rw [if_pos h]

/-- C6 witness: the amended theorem applied to the concrete breached state. -/
theorem claim6_witness :
    (enforce_daily_loss botLossA.portfolio ⟨50, 100, 0⟩ = true ↔
      botLossA.portfolio.realized_pnl + botLossA.portfolio.unrealized_pnl ≤ -(50 : ℚ)) ∧
    tick cfgA botLossA [] 0 = botLossA :=
  ⟨claim6_daily_loss_amended.1 botLossA.portfolio ⟨50, 100, 0⟩,
   claim6_daily_loss_amended.2 cfgA botLossA [] 0
     (by
       simp only [enforce_daily_loss, botLossA, riskLimitsOf, cfgA, decide_eq_true_eq]
       norm_num)⟩

/-- Without a `pending_entries` record for the market, `_manage_open_risk`
changes nothing: the hedge branch needs the recorded trigger price and the
exit branch needs the recorded timestamp. -/
theorem manage_open_risk_pending_none (cfg : BotConfig) (bot : BotState)
    (mid : String) (yesPos noPos : Option Position) (a b : ℚ) (snap : Snapshot)
    (now : ℚ) (h : alookup bot.pending mid = none) :
    manage_open_risk cfg bot mid yesPos noPos a b snap now = bot := by
  unfold manage_open_risk
  rw [h]
  cases yesPos <;> cases noPos <;> simp

/-- `_mark_unrealized` only touches the marks table. -/
theorem mark_unrealized_preserves (bot : BotState) (mid : String) (a b : ℚ) :
    (mark_unrealized bot mid a b).portfolio = bot.portfolio ∧
    (mark_unrealized bot mid a b).pending = bot.pending := by
  rcases hpm : positions_for_market bot.portfolio mid with ⟨yo, no⟩
  simp only [mark_unrealized, hpm]
  split_ifs <;> exact ⟨rfl, rfl⟩

/-- When the market still holds a leg after the risk pass and has no pending
record, `_trade_market` reduces to refreshing the mark. -/
theorem trade_market_eq_mark_of_leg (cfg : BotConfig) (bot : BotState)
    (market : Market) (snap : Snapshot) (decision : Option TradeDecision) (now : ℚ)
    (hpend : alookup bot.pending market.id = none)
    (hleg : (alookup bot.portfolio.positions (market.id ++ ":YES")).isSome = true ∨
      (alookup bot.portfolio.positions (market.id ++ ":NO")).isSome = true) :
    trade_market cfg bot market snap decision now
      = mark_unrealized bot market.id (min snap.best_ask market.outcome_yes_price)
          (min snap.best_bid market.outcome_no_price) := by
  unfold trade_market
  simp only [positions_for_market]
  rw [manage_open_risk_pending_none cfg bot market.id _ _ _ _ snap now hpend]
  rw [if_pos hleg]

/-- On a FLAT market with no pending record and equal effective YES/NO
prices, `_trade_market` performs no entry: the first entry filter demands the
cheap side to be strictly cheaper. -/
theorem trade_market_tie_no_entry (cfg : BotConfig) (bot : BotState)
    (market : Market) (snap : Snapshot) (decision : Option TradeDecision) (now : ℚ)
    (hpend : alookup bot.pending market.id = none)
    (hyes : alookup bot.portfolio.positions (market.id ++ ":YES") = none)
    (hno : alookup bot.portfolio.positions (market.id ++ ":NO") = none)
    (htie : min snap.best_ask market.outcome_yes_price
      = min snap.best_bid market.outcome_no_price) :
    trade_market cfg bot market snap decision now
      = mark_unrealized bot market.id (min snap.best_ask market.outcome_yes_price)
          (min snap.best_bid market.outcome_no_price) := by
  unfold trade_market
  simp only [positions_for_market]
  rw [manage_open_risk_pending_none cfg bot market.id _ _ _ _ snap now hpend]
  rw [htie, hyes, hno]
  simp [lt_irrefl]

/-- C4 counterexample: on the FLAT market with YES price 3/10 and NO price
3/10 where the timing gate passes and the advisory returns BUY with size 50,
`_trade_market` performs NO entry at all: the state is returned unchanged (no
position on either side, no pending record), because the entry filter
requires the cheaper side's price to be strictly below the other side's. -/
theorem claim4_counterexample :
    allow_entry (timingClassifierOf cfgA)
      { timestamp := snapB.timestamp, realized_vol_1m := snapB.realized_vol_1m,
        depth_change_30s := snapB.depth_change_30s,
        spread_change := snapB.spread_change,
        in_macro_window := snapB.in_macro_window } = true ∧
    trade_market cfgA botFlat mktB snapB (some decB) 21600 = botFlat ∧
    alookup (trade_market cfgA botFlat mktB snapB (some decB) 21600).portfolio.positions
      (positionKey "t" "NO") = none ∧
    alookup (trade_market cfgA botFlat mktB snapB (some decB) 21600).pending "t"
      = none := by
  have hgate : allow_entry (timingClassifierOf cfgA)
      { timestamp := snapB.timestamp, realized_vol_1m := snapB.realized_vol_1m,
        depth_change_30s := snapB.depth_change_30s,
        spread_change := snapB.spread_change,
        in_macro_window := snapB.in_macro_window } = true := by
    unfold allow_entry is_quiet_us_hour
    norm_num [timingClassifierOf, cfgA, snapB]
  have htm : trade_market cfgA botFlat mktB snapB (some decB) 21600 = botFlat := by
    rw [trade_market_tie_no_entry cfgA botFlat mktB snapB (some decB) 21600
      rfl rfl rfl (by norm_num [snapB, mktB])]
    simp [mark_unrealized, positions_for_market, botFlat, alookup, aerase]
  refine ⟨hgate, htm, ?_, ?_⟩ <;> rw [htm] <;> rfl

/-- C4 amended: with YES and NO priced equally, the cheap-side selection does
break the tie toward NO, but no FLAT → SINGLE_LEG entry is performed (whatever
the advisory says): the entry filter requires the cheaper side's price to be
strictly less than the other side's, so the portfolio and the pending table
are left unchanged and only the mark is refreshed. -/
theorem claim4_tie_no_entry_amended (cfg : BotConfig) (bot : BotState)
    (market : Market) (snap : Snapshot) (decision : Option TradeDecision) (now : ℚ)
    (hpend : alookup bot.pending market.id = none)
    (hyes : alookup bot.portfolio.positions (market.id ++ ":YES") = none)
    (hno : alookup bot.portfolio.positions (market.id ++ ":NO") = none)
    (htie : min snap.best_ask market.outcome_yes_price
      = min snap.best_bid market.outcome_no_price) :
    (if min snap.best_ask market.outcome_yes_price
        < min snap.best_bid market.outcome_no_price then "YES" else "NO") = "NO" ∧
    (trade_market cfg bot market snap decision now).portfolio = bot.portfolio ∧
    (trade_market cfg bot market snap decision now).pending = bot.pending := by
  refine ⟨by rw [htie]; simp [lt_irrefl], ?_, ?_⟩ <;>
    rw [trade_market_tie_no_entry cfg bot market snap decision now hpend hyes hno htie]
  · exact (mark_unrealized_preserves bot market.id _ _).1
  · exact (mark_unrealized_preserves bot market.id _ _).2

/-- C4 witness: the amended theorem applied to the concrete 3/10–3/10 tie
scenario with the advisory BUY of size 50. -/
theorem claim4_witness :
    (if min snapB.best_ask mktB.outcome_yes_price
        < min snapB.best_bid mktB.outcome_no_price then "YES" else "NO") = "NO" ∧
    (trade_market cfgA botFlat mktB snapB (some decB) 21600).portfolio
      = botFlat.portfolio ∧
    (trade_market cfgA botFlat mktB snapB (some decB) 21600).pending
      = botFlat.pending :=
  claim4_tie_no_entry_amended cfgA botFlat mktB snapB (some decB) 21600
    rfl rfl rfl (by norm_num [snapB, mktB])

/-- C10: a market holding exactly one open leg but no `PendingEntry` record
(for example a position seeded from the bootstrap snapshot) is neither hedged
nor force-exited by the per-market pass — the hedge branch needs the recorded
trigger price and the exit branch the recorded timestamp — so the cycle
leaves the portfolio and the pending table unchanged. -/
theorem claim10_orphan_leg_untouched (cfg : BotConfig) (bot : BotState)
    (market : Market) (snap : Snapshot) (decision : Option TradeDecision) (now : ℚ)
    (hpend : alookup bot.pending market.id = none)
    (hleg : ((∃ yp, alookup bot.portfolio.positions (market.id ++ ":YES") = some yp) ∧
        alookup bot.portfolio.positions (market.id ++ ":NO") = none) ∨
      (alookup bot.portfolio.positions (market.id ++ ":YES") = none ∧
        (∃ np, alookup bot.portfolio.positions (market.id ++ ":NO") = some np))) :
    manage_open_risk cfg bot market.id
        (alookup bot.portfolio.positions (market.id ++ ":YES"))
        (alookup bot.portfolio.positions (market.id ++ ":NO"))
        (min snap.best_ask market.outcome_yes_price)
        (min snap.best_bid market.outcome_no_price) snap now = bot ∧
    (trade_market cfg bot market snap decision now).portfolio = bot.portfolio ∧
    (trade_market cfg bot market snap decision now).pending = bot.pending := by
  have hsome : (alookup bot.portfolio.positions (market.id ++ ":YES")).isSome = true ∨
      (alookup bot.portfolio.positions (market.id ++ ":NO")).isSome = true := by
    rcases hleg with ⟨⟨yp, hyp⟩, _⟩ | ⟨_, ⟨np, hnp⟩⟩
    · left
      rw [hyp]
      rfl
    · right
      rw [hnp]
      rfl
  refine ⟨manage_open_risk_pending_none cfg bot market.id _ _ _ _ snap now hpend, ?_, ?_⟩ <;>
    rw [trade_market_eq_mark_of_leg cfg bot market snap decision now hpend hsome]
  · exact (mark_unrealized_preserves bot market.id _ _).1
  · exact (mark_unrealized_preserves bot market.id _ _).2

/-- C10 witness: a bootstrap-seeded YES leg with no pending record survives a
cycle untouched. -/
theorem claim10_witness :
    manage_open_risk cfgA ⟨⟨0, [("m:YES", posYesA)], 0, 0⟩, [], []⟩ mktA.id
        (alookup [("m:YES", posYesA)] ("m" ++ ":YES"))
        (alookup [("m:YES", posYesA)] ("m" ++ ":NO"))
        (min snapA.best_ask mktA.outcome_yes_price)
        (min snapA.best_bid mktA.outcome_no_price) snapA 7200
      = ⟨⟨0, [("m:YES", posYesA)], 0, 0⟩, [], []⟩ ∧
    (trade_market cfgA ⟨⟨0, [("m:YES", posYesA)], 0, 0⟩, [], []⟩ mktA snapA none
        7200).portfolio = (⟨⟨0, [("m:YES", posYesA)], 0, 0⟩, [], []⟩ : BotState).portfolio ∧
    (trade_market cfgA ⟨⟨0, [("m:YES", posYesA)], 0, 0⟩, [], []⟩ mktA snapA none
        7200).pending = (⟨⟨0, [("m:YES", posYesA)], 0, 0⟩, [], []⟩ : BotState).pending :=
  claim10_orphan_leg_untouched cfgA ⟨⟨0, [("m:YES", posYesA)], 0, 0⟩, [], []⟩ mktA
    snapA none 7200 rfl
    (Or.inl ⟨⟨posYesA, by rfl⟩, by rfl⟩)

/-- `close_position` on an existing position always removes its record: the
requested size is the full position size, so the remaining size is never
positive. -/
theorem close_position_removes (venue : String) (p : PortfolioState)
    (mid side : String) (price now : ℚ) (pos : Position)
    (hpos : alookup p.positions (positionKey mid side) = some pos) :
    alookup (close_position venue p mid side price now).2.positions
      (positionKey mid side) = none := by
  unfold close_position
  rw [hpos]
  unfold execute_market_order update_portfolio
  simp only [Option.getD_some]
  rw [if_pos strUpper_SELL, hpos]
  simp only []
  rw [if_pos (show pos.size - min |(|pos.size|)| |pos.size| ≤ 0 from by
    rw [abs_abs, min_self]
    exact sub_nonpos.mpr (le_abs_self _))]
  simp [alookup_aerase]

/-- `_buy_side` touches only its own `(marketId, side)` position key. -/
theorem buy_side_preserves (limits : RiskLimits) (p : PortfolioState)
    (mid side : String) (size price now : ℚ) (k : String)
    (hk : positionKey mid side ≠ k) :
    alookup (buy_side limits p mid side size price now).positions k
      = alookup p.positions k := by
  simp only [buy_side]
  split_ifs with h
  · rfl
  · unfold execute_market_order update_portfolio
    simp only [Option.getD_none]
    rw [if_neg (show ¬ strUpper "BUY" = "SELL" from by decide)]
    simp only []
    rw [alookup_aset, if_neg hk]

theorem no_key_ne_yes_key (mid : String) :
    positionKey mid "NO" ≠ positionKey mid "YES" := by
  rw [positionKey_YES, positionKey_NO]
  exact fun h => yes_key_ne_no_key mid h.symm

theorem yes_key_ne_no_key' (mid : String) :
    positionKey mid "YES" ≠ positionKey mid "NO" := by
  rw [positionKey_YES, positionKey_NO]
  exact yes_key_ne_no_key mid

/-- C3: whenever a forced-exit condition holds for a single-leg position
(hedge timeout exceeded, volatility above threshold, negative 30-second depth
change, or spread change above the widening limit), the per-market risk pass
closes the leg ONLY if its current price is at or above the position's
average entry price; when the price is below the entry average the position
record is left in place unchanged — a voluntary exit never realizes a loss. -/
theorem claim3_exit_only_at_or_above_entry (cfg : BotConfig) (bot : BotState)
    (mid : String) (yesPrice noPrice : ℚ) (snap : Snapshot) (now : ℚ) :
    (∀ yp, alookup bot.portfolio.positions (positionKey mid "YES") = some yp →
      (∀ e, alookup bot.pending mid = some e →
        forcedExitCond cfg snap (now - e.timestamp)) →
      ((yesPrice < yp.average_price →
        alookup (manage_open_risk cfg bot mid (some yp) none yesPrice noPrice snap
            now).portfolio.positions (positionKey mid "YES") = some yp) ∧
       (alookup (manage_open_risk cfg bot mid (some yp) none yesPrice noPrice snap
            now).portfolio.positions (positionKey mid "YES") = none →
        yp.average_price ≤ yesPrice))) ∧
    (∀ np, alookup bot.portfolio.positions (positionKey mid "NO") = some np →
      (∀ e, alookup bot.pending mid = some e →
        forcedExitCond cfg snap (now - e.timestamp)) →
      ((noPrice < np.average_price →
        alookup (manage_open_risk cfg bot mid none (some np) yesPrice noPrice snap
            now).portfolio.positions (positionKey mid "NO") = some np) ∧
       (alookup (manage_open_risk cfg bot mid none (some np) yesPrice noPrice snap
            now).portfolio.positions (positionKey mid "NO") = none →
        np.average_price ≤ noPrice))) := by
  constructor
  · intro yp hpos _
    unfold manage_open_risk
    rcases hp : alookup bot.pending mid with _ | e
    · simp only [hp]
      exact ⟨fun _ => hpos, fun hn => absurd (hpos.symm.trans hn) (by simp)⟩
    · simp only [hp]
      by_cases hc : noPrice < e.initial_other_price ∧
          combined_average (some yp) none 0 e.planned_size yesPrice noPrice < 99/100 ∧
          snap.near_top_depth ≥ 3 * e.planned_size ∧ snap.in_macro_window = false
      · rw [if_pos hc]
        simp only []
        rw [buy_side_preserves _ _ _ _ _ _ _ _ (no_key_ne_yes_key mid), hpos]
        exact ⟨fun _ => rfl, fun hn => absurd hn (by simp)⟩
      · rw [if_neg hc]
        by_cases hex : now - e.timestamp > cfg.hedge_timeout_seconds ∨
            snap.realized_vol_1m > cfg.volatility_threshold ∨
            snap.depth_change_30s < 0 ∨
            snap.spread_change > cfg.spread_widening_limit
        · rw [if_pos hex]
          by_cases hge : yesPrice ≥ yp.average_price
          · rw [if_pos hge]
            simp only []
            rw [close_position_removes _ _ _ _ _ _ _ hpos]
            exact ⟨fun hlt => absurd hge (not_le.mpr hlt), fun _ => hge⟩
          · rw [if_neg hge]
            exact ⟨fun _ => hpos, fun hn => absurd (hpos.symm.trans hn) (by simp)⟩
        · rw [if_neg hex]
          exact ⟨fun _ => hpos, fun hn => absurd (hpos.symm.trans hn) (by simp)⟩
  · intro np hpos _
    unfold manage_open_risk
    rcases hp : alookup bot.pending mid with _ | e
    · simp only [hp]
      exact ⟨fun _ => hpos, fun hn => absurd (hpos.symm.trans hn) (by simp)⟩
    · simp only [hp]
      by_cases hc : yesPrice < e.initial_other_price ∧
          combined_average none (some np) e.planned_size 0 yesPrice noPrice < 99/100 ∧
          snap.near_top_depth ≥ 3 * e.planned_size ∧ snap.in_macro_window = false
      · rw [if_pos hc]
        simp only []
        rw [buy_side_preserves _ _ _ _ _ _ _ _ (yes_key_ne_no_key' mid), hpos]
        exact ⟨fun _ => rfl, fun hn => absurd hn (by simp)⟩
      · rw [if_neg hc]
        by_cases hex : now - e.timestamp > cfg.hedge_timeout_seconds ∨
            snap.realized_vol_1m > cfg.volatility_threshold ∨
            snap.depth_change_30s < 0 ∨
            snap.spread_change > cfg.spread_widening_limit
        · rw [if_pos hex]
          by_cases hge : noPrice ≥ np.average_price
          · rw [if_pos hge]
            simp only []
            rw [close_position_removes _ _ _ _ _ _ _ hpos]
            exact ⟨fun hlt => absurd hge (not_le.mpr hlt), fun _ => hge⟩
          · rw [if_neg hge]
            exact ⟨fun _ => hpos, fun hn => absurd (hpos.symm.trans hn) (by simp)⟩
        · rw [if_neg hex]
          exact ⟨fun _ => hpos, fun hn => absurd (hpos.symm.trans hn) (by simp)⟩

/-- C3 witness: the stranded YES leg of `botLossA` past its hedge timeout. -/
theorem claim3_witness :
    ((3:ℚ)/10 < posYesA.average_price →
      alookup (manage_open_risk cfgA botLossA "m" (some posYesA) none (3/10) (1/2)
          snapA 7200).portfolio.positions (positionKey "m" "YES") = some posYesA) ∧
    (alookup (manage_open_risk cfgA botLossA "m" (some posYesA) none (3/10) (1/2)
        snapA 7200).portfolio.positions (positionKey "m" "YES") = none →
      posYesA.average_price ≤ 3/10) :=
  (claim3_exit_only_at_or_above_entry cfgA botLossA "m" (3/10) (1/2) snapA 7200).1
    posYesA rfl
    (by
      intro e he
      have he' : pendA = e := by
        have : alookup botLossA.pending "m" = some pendA := rfl
        rw [this] at he
        exact Option.some.inj he
      rw [← he']
      left
      norm_num [pendA, cfgA])

/-! ### Rate-limiter lemmas -/

theorem rlAcquire_now (s : RLState) (t : ℚ) : (rlAcquire s t).now = t := by
  unfold rlAcquire rlAfterRefill
  split_ifs <;> rfl

theorem rlAcquire_capacity (s : RLState) (t : ℚ) :
    (rlAcquire s t).capacity = s.capacity := by
  unfold rlAcquire rlAfterRefill
  split_ifs <;> rfl

/-- Along a valid trace every acquisition time is at or after the clock
reading of the starting state. -/
theorem rlValid_ge (ts : List ℚ) :
    ∀ (s : RLState), rlValid s ts → ∀ x ∈ ts, s.now ≤ x := by
  induction ts with
  | nil =>
      intro s _ x hx
      exact absurd hx (List.not_mem_nil x)
  | cons t ts' ih =>
      intro s hv x hx
      obtain ⟨hnow, _, hv'⟩ := hv
      rcases List.mem_cons.mp hx with h | h
      · rw [h]
        exact hnow
      · have := ih (rlAcquire s t) hv' x h
        rw [rlAcquire_now] at this
        exact le_trans hnow this

/-- One completed acquisition preserves the limiter invariant. -/
theorem rlInv_acquire (s : RLState) (t : ℚ) (hinv : rlInv s) (hnow : s.now ≤ t)
    (hcan : rlCanAcquire s t) : rlInv (rlAcquire s t) := by
  obtain ⟨h0, hc, hu⟩ := hinv
  unfold rlCanAcquire at hcan
  unfold rlAcquire rlAfterRefill rlInv
  unfold rlAfterRefill at hcan
  split_ifs with hr
  · rw [if_pos hr] at hcan
    dsimp only at hcan ⊢
    refine ⟨by omega, ?_, le_refl t⟩
    have := min_le_left s.capacity (s.tokens + ⌊rlRefill s t⌋)
    omega
  · rw [if_neg hr] at hcan
    dsimp only at hcan ⊢
    exact ⟨by omega, by omega, le_trans hu hnow⟩

/-- The per-acquisition potential drop: one completed acquisition decreases
`tokens + (E − updated)/60·capacity` by at least one, for any horizon `E` at
or after the acquisition time. -/
theorem rl_step_bound (s : RLState) (t E : ℚ) :
    ((rlAcquire s t).tokens : ℚ)
        + (E - (rlAcquire s t).updated) / 60 * ((rlAcquire s t).capacity : ℚ)
      ≤ (s.tokens : ℚ) - 1 + (E - s.updated) / 60 * (s.capacity : ℚ) := by
  unfold rlAcquire rlAfterRefill
  split_ifs with hr
  · simp only
    have hfloor : ((⌊rlRefill s t⌋ : ℤ) : ℚ) ≤ rlRefill s t := Int.floor_le _
    have hmin : ((min s.capacity (s.tokens + ⌊rlRefill s t⌋) : ℤ) : ℚ)
        ≤ ((s.tokens + ⌊rlRefill s t⌋ : ℤ) : ℚ) := by
      exact_mod_cast min_le_right _ _
    have hsplit : (E - s.updated) / 60 * (s.capacity : ℚ)
        = (E - t) / 60 * (s.capacity : ℚ) + rlRefill s t := by
      unfold rlRefill
      ring
    rw [hsplit]
    push_cast at hmin
    push_cast
    linarith
  · simp only
    push_cast
    linarith

/-- Token-potential bound: from a state whose refill timestamp is at most the
window end `w + 60`, the number of acquisitions of a valid trace that land in
`[w, w + 60)` is bounded by the current tokens plus the capacity refillable
until the window end. -/
theorem rl_count_bound (ts : List ℚ) :
    ∀ (s : RLState) (w : ℚ), rlInv s → rlValid s ts → s.updated ≤ w + 60 →
    (windowCount w ts : ℚ)
      ≤ (s.tokens : ℚ) + (w + 60 - s.updated) / 60 * (s.capacity : ℚ) := by
  induction ts with
  | nil =>
      intro s w hinv _ hup
      have hcap : (0 : ℚ) ≤ (s.capacity : ℚ) := by
        exact_mod_cast le_trans hinv.1 hinv.2.1
      have htok : (0 : ℚ) ≤ (s.tokens : ℚ) := by exact_mod_cast hinv.1
      simp only [windowCount, List.countP_nil, Nat.cast_zero]
      have : (0 : ℚ) ≤ (w + 60 - s.updated) / 60 * (s.capacity : ℚ) :=
        mul_nonneg (div_nonneg (by linarith) (by norm_num)) hcap
      linarith
  | cons t ts' ih =>
      intro s w hinv hv hup
      obtain ⟨hnow, hcan, hv'⟩ := hv
      have hcap : (0 : ℚ) ≤ (s.capacity : ℚ) := by
        exact_mod_cast le_trans hinv.1 hinv.2.1
      have htok : (0 : ℚ) ≤ (s.tokens : ℚ) := by exact_mod_cast hinv.1
      by_cases hE : w + 60 ≤ t
      · have hzero : windowCount w ts' = 0 := by
          rw [windowCount, List.countP_eq_zero]
          intro x hx
          have hge := rlValid_ge ts' (rlAcquire s t) hv' x hx
          rw [rlAcquire_now] at hge
          simp only [decide_eq_true_eq, not_and, not_lt]
          intro _
          linarith
        have hhead : ¬ (w ≤ t ∧ t < w + 60) := fun hc => absurd hc.2 (not_lt.mpr hE)
        rw [windowCount, List.countP_cons]
        rw [show List.countP (fun x => decide (w ≤ x ∧ x < w + 60)) ts'
            = windowCount w ts' from rfl, hzero]
        simp only [hhead, decide_eq_true_eq, if_neg, decide_eq_false_iff_not,
          Nat.cast_zero, zero_add]
        rw [if_neg (by simp [hhead])]
        have : (0 : ℚ) ≤ (w + 60 - s.updated) / 60 * (s.capacity : ℚ) :=
          mul_nonneg (div_nonneg (by linarith) (by norm_num)) hcap
        push_cast
        linarith
      · have hlt : t < w + 60 := not_le.mp hE
        have hinv2 := rlInv_acquire s t hinv hnow hcan
        have hup2 : (rlAcquire s t).updated ≤ w + 60 := by
          unfold rlAcquire rlAfterRefill
          split_ifs with hr
          · exact le_of_lt hlt
          · exact hup
        have hbound := ih (rlAcquire s t) w hinv2 hv' hup2
        have hstep := rl_step_bound s t (w + 60)
        have hcount : (windowCount w (t :: ts') : ℚ) ≤ (windowCount w ts' : ℚ) + 1 := by
          rw [windowCount, windowCount, List.countP_cons]
          push_cast
          split_ifs <;> simp
        rw [rlAcquire_capacity] at hbound hstep
        linarith

/-- The global rolling-window bound: any valid trace of the limiter completes
at most `2 * capacity` acquisitions inside any window `[w, w + 60)`. -/
theorem rl_window_bound (ts : List ℚ) :
    ∀ (s : RLState) (w : ℚ), rlInv s → rlValid s ts →
    (windowCount w ts : ℚ) ≤ 2 * (s.capacity : ℚ) := by
  induction ts with
  | nil =>
      intro s w hinv _
      have hcap : (0 : ℚ) ≤ (s.capacity : ℚ) := by
        exact_mod_cast le_trans hinv.1 hinv.2.1
      simp only [windowCount, List.countP_nil, Nat.cast_zero]
      linarith
  | cons t ts' ih =>
      intro s w hinv hv
      obtain ⟨hnow, hcan, hv'⟩ := hv
      have hcap : (0 : ℚ) ≤ (s.capacity : ℚ) := by
        exact_mod_cast le_trans hinv.1 hinv.2.1
      have htokc : (s.tokens : ℚ) ≤ (s.capacity : ℚ) := by exact_mod_cast hinv.2.1
      have hinv2 := rlInv_acquire s t hinv hnow hcan
      by_cases hw : t < w
      · have hhead : ¬ (w ≤ t ∧ t < w + 60) := fun hc => absurd hc.1 (not_le.mpr hw)
        have htail := ih (rlAcquire s t) w hinv2 hv'
        rw [rlAcquire_capacity] at htail
        rw [windowCount, List.countP_cons]
        rw [if_neg (by simpa using hhead)]
        rw [show List.countP (fun x => decide (w ≤ x ∧ x < w + 60)) ts'
            = windowCount w ts' from rfl]
        push_cast
        linarith
      · by_cases hE : w + 60 ≤ t
        · have hzero : windowCount w ts' = 0 := by
            rw [windowCount, List.countP_eq_zero]
            intro x hx
            have hge := rlValid_ge ts' (rlAcquire s t) hv' x hx
            rw [rlAcquire_now] at hge
            simp only [decide_eq_true_eq, not_and, not_lt]
            intro _
            linarith
          have hhead : ¬ (w ≤ t ∧ t < w + 60) := fun hc => absurd hc.2 (not_lt.mpr hE)
          rw [windowCount, List.countP_cons]
          rw [if_neg (by simpa using hhead)]
          rw [show List.countP (fun x => decide (w ≤ x ∧ x < w + 60)) ts'
              = windowCount w ts' from rfl, hzero]
          push_cast
          linarith
        · -- the head acquisition lands inside the window
          have hwt : w ≤ t := not_lt.mp hw
          have hlt : t < w + 60 := not_le.mp hE
          have hup2 : (rlAcquire s t).updated ≤ w + 60 := by
            unfold rlAcquire rlAfterRefill
            split_ifs with hr
            · exact le_of_lt hlt
            · exact le_trans (le_trans hinv.2.2 hnow) (le_of_lt hlt)
          have hbound := rl_count_bound ts' (rlAcquire s t) w hinv2 hv' hup2
          rw [rlAcquire_capacity] at hbound
          have hwin : (w + 60 - t) / 60 * (s.capacity : ℚ) ≤ (s.capacity : ℚ) := by
            have h1 : (w + 60 - t) / 60 ≤ 1 := by
              rw [div_le_one (by norm_num : (0:ℚ) < 60)]
              linarith
            calc (w + 60 - t) / 60 * (s.capacity : ℚ)
                ≤ 1 * (s.capacity : ℚ) := by
                  apply mul_le_mul_of_nonneg_right h1 hcap
              _ = (s.capacity : ℚ) := one_mul _
          have hcount : (windowCount w (t :: ts') : ℚ)
              ≤ (windowCount w ts' : ℚ) + 1 := by
            rw [windowCount, windowCount, List.countP_cons]
            push_cast
            split_ifs <;> simp
          have hfin : (windowCount w ts' : ℚ) ≤ 2 * (s.capacity : ℚ) - 1 := by
            unfold rlAcquire rlAfterRefill at hbound
            by_cases hr : 1 ≤ rlRefill s t
            · rw [if_pos hr] at hbound
              dsimp only at hbound
              have hminc : ((min s.capacity (s.tokens + ⌊rlRefill s t⌋) : ℤ) : ℚ)
                  ≤ (s.capacity : ℚ) := by exact_mod_cast min_le_left _ _
              push_cast at hbound
              push_cast at hminc
              linarith
            · rw [if_neg hr] at hbound
              dsimp only at hbound
              have hrlt : rlRefill s t < 1 := not_le.mp hr
              have hsplit : (w + 60 - s.updated) / 60 * (s.capacity : ℚ)
                  = (w + 60 - t) / 60 * (s.capacity : ℚ) + rlRefill s t := by
                unfold rlRefill
                ring
              rw [hsplit] at hbound
              push_cast at hbound
              have hstrict : (windowCount w ts' : ℚ) < 2 * (s.capacity : ℚ) := by
                linarith
              have hstrictZ : (windowCount w ts' : ℤ) < 2 * s.capacity := by
                exact_mod_cast hstrict
              have hZ : (windowCount w ts' : ℤ) ≤ 2 * s.capacity - 1 := by omega
              exact_mod_cast hZ
          linarith

/-- C7 counterexample: with capacity 2 the trace of completed acquisitions at
clock times 0, 0 and 30 is valid (the bucket starts full with 2 tokens and
the refill at t = 30 restores one token), yet all 3 acquisitions fall inside
the single rolling window [0, 60) — more than `capacity`. -/
theorem claim7_counterexample :
    rlValid (rlInit 2 0) [0, 0, 30] ∧
    windowCount 0 [0, 0, 30] = 3 ∧
    2 < 3 := by
  refine ⟨?_, ?_, by norm_num⟩
  · norm_num [rlValid, rlCanAcquire, rlAcquire, rlAfterRefill, rlRefill, rlInit]
  · norm_num [windowCount, List.countP_cons, List.countP_nil]

/-- C7 amended: for every pattern of concurrent or sequential calls —
modelled as an arbitrary valid trace of completed acquisitions on the
monotonic clock — the token-bucket limiter allows at most `2 * capacity`
acquisitions to complete within any rolling 60-second window.  (The bucket
starts full, so a burst of `capacity` at the window start can be followed by
up to another `capacity` of refilled tokens within the same window; the
original bound of `capacity` per rolling window fails.) -/
theorem claim7_rate_limiter_amended (cap : ℤ) (t0 : ℚ) (ts : List ℚ) (w : ℚ)
    (hcap : 1 ≤ cap) (hv : rlValid (rlInit cap t0) ts) :
    (windowCount w ts : ℚ) ≤ 2 * (cap : ℚ) := by
  have hb := rl_window_bound ts (rlInit cap t0) w
    ⟨show (0:ℤ) ≤ cap by omega, le_refl _, le_refl _⟩ hv
  simpa [rlInit] using hb

/-- C7 witness: the amended bound applied to a one-acquisition trace at
capacity 1. -/
theorem claim7_witness :
    rlValid (rlInit 1 0) [0] ∧ (windowCount 0 [0] : ℚ) ≤ 2 * ((1 : ℤ) : ℚ) := by
  have hvalid : rlValid (rlInit 1 0) [0] := by
    norm_num [rlValid, rlCanAcquire, rlAcquire, rlAfterRefill, rlRefill, rlInit]
  exact ⟨hvalid, claim7_rate_limiter_amended 1 0 [0] 0 (by norm_num) hvalid⟩

end PolymarketBot
